import Mathlib

/-!
Verification of the GitHub Issue Notebooks core against its source.

The development shallowly embeds the two source files of the repository:

* `src/parser/symbols.ts` — the built-in qualifier schema (`qualifiers`,
  `requiresPrType`), `SymbolInfo`, `SymbolTable` and `fillSymbols`;
* the extension module — `escapeHtml` with its `entityMap`, the `cmp`
  comparator namespace, the paginated fetch loop and the sort/dedup pipeline
  of `IssuesNotebookProvider._doExecuteCell`, and the `NotebookCellExecution`
  generation-token run-state machine.

JavaScript numbers appearing in the embedded code are integer-valued
throughout (array lengths, item counts, `Date.parse` millisecond timestamps),
so they are embedded as `Nat`/`Int`.  JavaScript `Set` iteration order is
insertion order, so a `Set` of freshly allocated objects is embedded as a
list with insertion at the tail.
-/

set_option maxRecDepth 8000

/-! ## Search items

`SearchIssuesAndPullRequestsResponseItemsItem`, restricted to the fields the
embedded code reads: `url` (dedup identity), `comments`, `created_at`,
`updated_at` (comparators), `repository_url`, `title` and `number`
(rendering).  `created_at` and `updated_at` hold the `Date.parse` value
(integer milliseconds since the epoch) of the item's ISO timestamp;
`Date.parse` is the JS builtin the source applies to these string fields
before comparing. -/

structure Item where
  url : String
  repository_url : String
  title : String
  number : Nat
  comments : Nat
  created_at : Int
  updated_at : Int
deriving DecidableEq, Repr

/-! ## escapeHtml -/

/-- Embeds `entityMap` of the extension module: the HTML entity for each of
the eight escaped characters, `none` for every other character (absence of a
key in the record). -/
def entityMap (c : Char) : Option String :=
  if c = '&' then some "&amp;"
  else if c = '<' then some "&lt;"
  else if c = '>' then some "&gt;"
  else if c = '"' then some "&quot;"
  else if c = '\'' then some "&#39;"
  else if c = '/' then some "&#x2F;"
  else if c = '`' then some "&#x60;"
  else if c = '=' then some "&#x3D;"
  else none

/-- One step of `escapeHtml`'s global regex replacement: the regex character
class of the source is exactly the key set of `entityMap`, so a character is
replaced by its entity when it has one and kept verbatim otherwise. -/
def escapeChar (c : Char) : List Char :=
  match entityMap c with
  | some e => e.data
  | none => [c]

/-- Embeds `escapeHtml` (the global regex replace), characterwise over the
input. -/
def escapeHtmlChars : List Char → List Char
  | [] => []
  | c :: cs => escapeChar c ++ escapeHtmlChars cs

/-- Embeds `escapeHtml` on whole strings. -/
def escapeHtml (s : String) : String :=
  String.mk (escapeHtmlChars s.data)

/-- The seven characters named by the claim about `escapeHtml`'s output
(the claim's list omits the ampersand). -/
def escapedAway : List Char := ['<', '>', '"', '\'', '`', '=', '/']

/-! ## Comparators (`cmp` namespace of the extension module) -/

namespace cmp

/-- Embeds `cmp.invert`: `(a, b) => compare(a, b) * -1`. -/
def invert {T : Type} (compare : T → T → Int) : T → T → Int :=
  fun a b => compare a b * -1

/-- Embeds `cmp.compareByComments`. -/
def compareByComments (a b : Item) : Int :=
  (a.comments : Int) - (b.comments : Int)

/-- Embeds `cmp.compareByCreated` (`Date.parse` values are stored in the
field directly, see `Item`). -/
def compareByCreated (a b : Item) : Int :=
  a.created_at - b.created_at

/-- Embeds `cmp.compareByUpdated`. -/
def compareByUpdated (a b : Item) : Int :=
  a.updated_at - b.updated_at

/-- Embeds the `cmp.byName` map lookup (a JS `Map.get`, `none` for a key
that is not one of the three entries). -/
def byName (s : String) : Option (Item → Item → Int) :=
  if s = "comments" then some compareByComments
  else if s = "created" then some compareByCreated
  else if s = "updated" then some compareByUpdated
  else none

end cmp

/-! ## The sort / dedup pipeline of `_doExecuteCell` -/

/-- Placing one element into an already sorted list the way
`Array.prototype.sort` orders it: before the first element it compares
below, after every element it ties with (ES2019 `sort` is stable). -/
def sortInsert {α : Type} (compare : α → α → Int) (a : α) : List α → List α
  | [] => [a]
  | b :: bs => if compare a b < 0 then a :: b :: bs else b :: sortInsert compare a bs

/-- Embeds `allItems.sort(comparator)`: a stable sort by a JS compare
function. -/
def sortWithComparator {α : Type} (compare : α → α → Int) (l : List α) : List α :=
  l.foldl (fun acc x => sortInsert compare x acc) []

/-- One compiled sub-query of an executable unit: query string plus optional
sort/order directives (both absent when the statement declares none). -/
structure QueryData where
  q : String
  sort : Option String
  order : Option String
deriving DecidableEq, Repr

/-- Embeds the sort step of `_doExecuteCell`:

* `const [first] = allQueryData` (the condition short-circuits before
  touching `first` when the array is empty);
* `comparator = allQueryData.length >= 2 && allQueryData.every(item =>
  item.sort === first.sort) && cmp.byName.get(first.sort!)` — a JS `&&`
  chain whose value is the `byName` lookup when both tests pass, and a falsy
  value otherwise (`Map.get(undefined)` is `undefined`);
* `if (comparator) allItems.sort(first.sort === 'asc' ? cmp.invert(comparator)
  : comparator)` — note the source compares the sort *field* against the
  string `'asc'` here, not the order. -/
def applySort : List QueryData → List Item → List Item
  | [], allItems => allItems
  | first :: restQueries, allItems =>
    let comparator : Option (Item → Item → Int) :=
      if decide (2 ≤ (first :: restQueries).length)
          && (first :: restQueries).all (fun item => item.sort == first.sort) then
        match first.sort with
        | some s => cmp.byName s
        | none => none
      else none
    match comparator with
    | some c =>
      sortWithComparator (if first.sort == some "asc" then cmp.invert c else c) allItems
    | none => allItems

/-- Embeds the render loop's URL dedup of `_doExecuteCell`: a `seen` set of
URLs, an item whose `url` was already seen is skipped, otherwise it is
emitted and its `url` recorded. -/
def dedupByUrlFrom (seen : List String) : List Item → List Item
  | [] => []
  | i :: rest =>
    if seen.contains i.url then dedupByUrlFrom seen rest
    else i :: dedupByUrlFrom (i.url :: seen) rest

/-- The render loop's dedup started with an empty `seen` set. -/
def dedupByUrl (items : List Item) : List Item :=
  dedupByUrlFrom [] items

/-- Embeds the post-fetch pipeline of `_doExecuteCell` as a function of the
already-fetched concatenation `allItems`: the conditional cross-query sort
followed by the render loop's URL dedup.  The "aggregated output sequence"
of the claims is the deduplicated sequence the render loop emits. -/
def aggregated (allQueryData : List QueryData) (allItems : List Item) : List Item :=
  dedupByUrl (applySort allQueryData allItems)

/-! ## Concrete inputs for the aggregation claims -/

/-- Item A of the aggregation scenario, created 2023-01-01
(`Date.parse` value 1672531200000). -/
def itemA : Item :=
  { url := "https://api.github.com/repos/o/r/issues/1"
    repository_url := "https://api.github.com/repos/o/r"
    title := "A", number := 1, comments := 0
    created_at := 1672531200000, updated_at := 1672531200000 }

/-- Item B of the aggregation scenario, created 2023-02-01
(`Date.parse` value 1675209600000). -/
def itemB : Item :=
  { url := "https://api.github.com/repos/o/r/issues/2"
    repository_url := "https://api.github.com/repos/o/r"
    title := "B", number := 2, comments := 0
    created_at := 1675209600000, updated_at := 1675209600000 }

/-- Item C of the aggregation scenario, created 2023-01-15
(`Date.parse` value 1673740800000). -/
def itemC : Item :=
  { url := "https://api.github.com/repos/o/r/issues/3"
    repository_url := "https://api.github.com/repos/o/r"
    title := "C", number := 3, comments := 0
    created_at := 1673740800000, updated_at := 1673740800000 }

/-- An item whose URL duplicates `itemA`'s, created 2023-03-01
(`Date.parse` value 1677628800000). -/
def itemAdup : Item :=
  { url := "https://api.github.com/repos/o/r/issues/1"
    repository_url := "https://api.github.com/repos/o/r"
    title := "A again", number := 1, comments := 0
    created_at := 1677628800000, updated_at := 1677628800000 }

/-- Two sub-queries both declaring sort field `created` and order `desc`. -/
def createdDescQueries : List QueryData :=
  [{ q := "repo:o/r label:bug", sort := some "created", order := some "desc" },
   { q := "repo:o/r label:feature", sort := some "created", order := some "desc" }]

/-! ## Claim C9 — cmp.invert -/

/-- C9: `cmp.invert c a b` is the negation of `c a b`, and inverting twice
gives back `c` pointwise (`x * -1 = -x` over the integers). -/
theorem invert_negates {T : Type} (c : T → T → Int) (a b : T) :
    cmp.invert c a b = -(c a b) ∧ cmp.invert (cmp.invert c) a b = c a b := by
  constructor <;> simp [cmp.invert]

/-! ## Claim C8 — escapeHtml -/

/-- C8 counterexample: the ampersand is not among the seven characters the
claim lists, yet `escapeHtml` does not preserve it — `escapeHtml "&"` is
`"&amp;"`, not `"&"` — so "all other characters of s are preserved in
order" fails at `s = "&"`. -/
theorem escapeHtml_ampersand_counterexample :
    escapeHtml "&" = "&amp;" ∧ escapeHtml "&" ≠ "&" ∧ ('&' ∈ escapedAway → False) := by
  refine ⟨by decide, by decide, by decide⟩

theorem escapeChar_no_escaped (c : Char) :
    (escapeChar c).all (fun x => !(escapedAway.contains x)) = true := by
  unfold escapeChar entityMap
  split_ifs with h1 h2 h3 h4 h5 h6 h7 h8
  · rfl
  · rfl
  · rfl
  · rfl
  · rfl
  · rfl
  · rfl
  · rfl
  · simp [escapedAway, List.contains, h2, h3, h4, h5, h6, h7, h8]

/-- C8 (amended): `escapeHtml` output contains none of the seven listed
characters, and the output is the in-order concatenation of the per-character
images: each of the eight mapped characters (the seven listed ones and the
ampersand) is replaced by its entity from `entityMap`, every other character
is preserved. -/
theorem escapeHtml_characterization (s : List Char) :
    (escapeHtmlChars s).all (fun c => !(escapedAway.contains c)) = true ∧
    escapeHtmlChars s = (s.map escapeChar).flatten := by
  induction s with
  | nil => exact ⟨rfl, rfl⟩
  | cons c cs ih =>
    refine ⟨?_, ?_⟩
    · simp only [escapeHtmlChars, List.all_append]
      rw [escapeChar_no_escaped c, ih.1]
      rfl
    · simp only [escapeHtmlChars, List.map_cons, List.flatten_cons]
      rw [ih.2]

/-! ## Claim C1 — aggregated order for two created-desc sub-queries -/

/-- C1 counterexample: with both sub-queries declaring `created` / `desc`
and fetched sets `[A, B]` and `[C]`, the aggregated output of the code is
not `[B, C, A]`: the sort branch compares the sort field (`"created"`)
against `'asc'`, which is never true, so the ascending `compareByCreated`
comparator is applied as-is and the output is `[A, C, B]`. -/
theorem aggregated_created_desc_counterexample :
    aggregated createdDescQueries [itemA, itemB, itemC] ≠ [itemB, itemC, itemA] := by
  decide

/-- C1 (amended): for the two `created`/`desc` sub-queries with fetched sets
`[A, B]` and `[C]` the aggregated output is `[A, C, B]` — ascending by
`created`, the declared `desc` order being ignored because the inversion
branch tests the sort field, not the order, against `'asc'` — and an item
whose URL duplicates an earlier item's URL is dropped, keeping the first
occurrence. -/
theorem aggregated_created_desc_eval :
    aggregated createdDescQueries [itemA, itemB, itemC] = [itemA, itemC, itemB] ∧
    aggregated createdDescQueries [itemA, itemB, itemC, itemAdup] = [itemA, itemC, itemB] := by
  exact ⟨by decide, by decide⟩

/-! ## Claim C5 — when the cross-query sort applies -/

/-- Items with pairwise "unsorted" field values: the concatenation order
below is ordered by none of the three comparators in either direction. -/
def itemU : Item :=
  { url := "https://api.github.com/repos/o/r/issues/11"
    repository_url := "https://api.github.com/repos/o/r"
    title := "U", number := 11, comments := 2, created_at := 20, updated_at := 200 }

def itemV : Item :=
  { url := "https://api.github.com/repos/o/r/issues/12"
    repository_url := "https://api.github.com/repos/o/r"
    title := "V", number := 12, comments := 1, created_at := 10, updated_at := 100 }

def itemW : Item :=
  { url := "https://api.github.com/repos/o/r/issues/13"
    repository_url := "https://api.github.com/repos/o/r"
    title := "W", number := 13, comments := 3, created_at := 30, updated_at := 300 }

/-- Two sub-queries sharing the declared sort field `reactions`, a field
`cmp.byName` has no comparator for. -/
def reactionsQueries : List QueryData :=
  [{ q := "repo:o/r label:bug", sort := some "reactions", order := some "desc" },
   { q := "repo:o/r label:feature", sort := some "reactions", order := some "desc" }]

/-- C5 counterexample: a unit with two sub-queries that share the declared
sort field `reactions` — so the claim says the cross-query merge-sort is
applied — yet the code leaves the concatenation untouched, because
`cmp.byName` maps only `comments`, `created` and `updated`.  The output
equals the concatenation `[U, V, W]`, which no comparator of the program
orders in either direction, so no merge-sort took place. -/
theorem applySort_shared_unmapped_counterexample :
    applySort reactionsQueries [itemU, itemV, itemW] = [itemU, itemV, itemW] ∧
    cmp.byName "reactions" = none ∧
    sortWithComparator cmp.compareByComments [itemU, itemV, itemW] ≠ [itemU, itemV, itemW] ∧
    sortWithComparator (cmp.invert cmp.compareByComments) [itemU, itemV, itemW]
      ≠ [itemU, itemV, itemW] ∧
    sortWithComparator cmp.compareByCreated [itemU, itemV, itemW] ≠ [itemU, itemV, itemW] ∧
    sortWithComparator (cmp.invert cmp.compareByCreated) [itemU, itemV, itemW]
      ≠ [itemU, itemV, itemW] ∧
    sortWithComparator cmp.compareByUpdated [itemU, itemV, itemW] ≠ [itemU, itemV, itemW] ∧
    sortWithComparator (cmp.invert cmp.compareByUpdated) [itemU, itemV, itemW]
      ≠ [itemU, itemV, itemW] := by
  refine ⟨by decide, rfl, by decide, by decide, by decide, by decide, by decide, by decide⟩

theorem byName_ne_asc {f : String} {c : Item → Item → Int}
    (h : cmp.byName f = some c) : f ≠ "asc" := by
  intro hf
  subst hf
  simp [cmp.byName] at h

/-- C5 (amended): the cross-query sort is applied if and only if the unit
has two or more sub-queries, every sub-query declares the identical sort
field, and that field is one `cmp.byName` maps (`comments`, `created` or
`updated`); the applied comparator is the field's ascending comparator (the
declared order never inverts it, since the inversion test compares the sort
field against `'asc'`).  In every other case the aggregated order equals the
straight concatenation, unsorted. -/
theorem applySort_condition_characterization :
    (∀ (q0 : QueryData) (restQueries : List QueryData) (items : List Item)
        (f : String) (c : Item → Item → Int),
        (∀ qd ∈ q0 :: restQueries, qd.sort = some f) →
        cmp.byName f = some c →
        2 ≤ (q0 :: restQueries).length →
        applySort (q0 :: restQueries) items = sortWithComparator c items) ∧
    (∀ (qds : List QueryData) (items : List Item),
        (qds.length < 2 ∨
          ¬ ∃ (f : String) (c : Item → Item → Int),
              cmp.byName f = some c ∧ ∀ qd ∈ qds, qd.sort = some f) →
        applySort qds items = items) := by
  constructor
  · intro q0 restQueries items f c hall hbyname hlen
    have hq0 : q0.sort = some f := hall q0 (List.mem_cons_self q0 restQueries)
    have hcond : ((q0 :: restQueries).all (fun item => item.sort == some f)) = true := by
      rw [List.all_eq_true]
      intro qd hqd
      rw [hall qd hqd]
      simp
    have hf : f ≠ "asc" := byName_ne_asc hbyname
    have hnasc : ((some f : Option String) == some "asc") = false := by simp [hf]
    have hlen2 : decide (2 ≤ (q0 :: restQueries).length) = true := decide_eq_true hlen
    have h1 : 1 ≤ restQueries.length := by
      simp only [List.length_cons] at hlen
      omega
    simp [applySort, hq0, hbyname, hcond, hnasc, hlen2, h1]
  · intro qds items h
    match qds with
    | [] => rfl
    | q0 :: restQueries =>
      rcases h with hlen | hne
      · have h0 : restQueries.length = 0 := by
          simp only [List.length_cons] at hlen
          omega
        simp [applySort, h0]
      · match hq0 : q0.sort with
        | none => simp [applySort, hq0, ite_self]
        | some s =>
          match hby : cmp.byName s with
          | none => simp [applySort, hq0, hby, ite_self]
          | some c =>
            by_cases hcond : ((q0 :: restQueries).all (fun item => item.sort == some s)) = true
            · exfalso
              apply hne
              refine ⟨s, c, hby, ?_⟩
              intro qd hqd
              rw [List.all_eq_true] at hcond
              exact eq_of_beq (hcond qd hqd)
            · rw [Bool.not_eq_true] at hcond
              simp [applySort, hq0, hcond]

/-- Witness for the characterization: both sub-queries of the concrete
`created`-sorted unit declare the same mapped field, so the sort is the
ascending `compareByCreated`. -/
theorem applySort_condition_witness :
    applySort createdDescQueries [itemA, itemB, itemC]
      = sortWithComparator cmp.compareByCreated [itemA, itemB, itemC] := by
  exact applySort_condition_characterization.1
    { q := "repo:o/r label:bug", sort := some "created", order := some "desc" }
    [{ q := "repo:o/r label:feature", sort := some "created", order := some "desc" }]
    [itemA, itemB, itemC] "created" cmp.compareByCreated
    (by decide) rfl (by decide)

/-! ## The symbol table (`src/parser/symbols.ts`) -/

/-- Embeds the `ValueType` enumeration. -/
inductive ValueType where
  | Number
  | Date
  | BaseBranch
  | HeadBranch
  | Label
  | Language
  | Milestone
  | Orgname
  | ProjectBoard
  | Repository
  | Teamname
  | Username
deriving DecidableEq, Repr

/-- Embeds `Value = ValueType | Set<string>[]` as a tagged sum; a JS `Set`
of string literals is a list of its members in insertion order. -/
inductive Value where
  | valueType (t : ValueType)
  | sets (s : List (List String))
deriving DecidableEq, Repr

/-- Embeds the `qualifiers` map: the built-in qualifier schema, in the
source's insertion order (a JS `Map` iterates in insertion order). -/
def qualifiers : List (String × Value) :=
  [("type", Value.sets [["pr", "issue"]]),
   ("updated", Value.valueType ValueType.Date),
   ("in", Value.sets [["title", "body", "comments"]]),
   ("org", Value.valueType ValueType.Orgname),
   ("repo", Value.valueType ValueType.Repository),
   ("user", Value.valueType ValueType.Username),
   ("state", Value.sets [["open", "closed"]]),
   ("assignee", Value.valueType ValueType.Username),
   ("author", Value.valueType ValueType.Username),
   ("mentions", Value.valueType ValueType.Username),
   ("team", Value.valueType ValueType.Teamname),
   ("commenter", Value.valueType ValueType.Username),
   ("involves", Value.valueType ValueType.Username),
   ("label", Value.valueType ValueType.Label),
   ("linked", Value.sets [["pr", "issue"]]),
   ("milestone", Value.valueType ValueType.Milestone),
   ("project", Value.valueType ValueType.ProjectBoard),
   ("language", Value.valueType ValueType.Language),
   ("comments", Value.valueType ValueType.Number),
   ("interactions", Value.valueType ValueType.Number),
   ("reactions", Value.valueType ValueType.Number),
   ("created", Value.valueType ValueType.Date),
   ("closed", Value.valueType ValueType.Date),
   ("archived", Value.sets [["true", "false"]]),
   ("is", Value.sets [["locked", "unlocked"], ["merged", "unmerged"],
      ["public", "private"], ["open", "closed"], ["pr", "issue"]]),
   ("no", Value.sets [["label", "milestone", "assignee", "project"]]),
   ("status", Value.sets [["pending", "success", "failure"]]),
   ("base", Value.valueType ValueType.BaseBranch),
   ("head", Value.valueType ValueType.HeadBranch),
   ("draft", Value.sets [["true", "false"]]),
   ("review-requested", Value.valueType ValueType.Username),
   ("review", Value.sets [["none", "required", "approved"]]),
   ("reviewed-by", Value.valueType ValueType.Username),
   ("team-review-requested", Value.valueType ValueType.Teamname),
   ("merged", Value.valueType ValueType.Date)]

/-- Embeds `requiresPrType`: the qualifiers whose use requires a PR-type
restriction, in the source's insertion order. -/
def requiresPrType : List String :=
  ["status", "base", "head", "draft", "review-requested", "review",
   "reviewed-by", "team-review-requested", "merged"]

/-- Modelled from the spec: the syntax-tree module (`nodes.ts`) is not among
the source files.  The spec's data model makes a QueryDocument an ordered
sequence of top-level Query / VariableDefinition statements, and
`fillSymbols` distinguishes only VariableDefinition nodes (which carry a
name) from every other node while walking, so a statement is embedded as
that choice. -/
inductive Statement where
  | varDef (name : String)
  | query
deriving DecidableEq, Repr

/-- Modelled from the spec: a QueryDocument node as the ordered sequence of
its top-level statements (see `Statement`). -/
structure QueryDocumentNode where
  nodes : List Statement
deriving DecidableEq, Repr

/-- Embeds `SymbolInfo` (`def` is a Lean keyword, so the defining-node field
is called `defNode`).  Built-in entries carry no uri and no defining node;
user entries carry no declared value. -/
structure SymbolInfo where
  name : String
  uri : Option String := none
  defNode : Option Statement := none
  value : Option Value := none
deriving DecidableEq, Repr

/-- Embeds `SymbolTable`: the private `Set<SymbolInfo>` holds freshly
allocated objects, so insertion always appends, and iteration is in
insertion order. -/
structure SymbolTable where
  data : List SymbolInfo
deriving DecidableEq, Repr

namespace SymbolTable

/-- Embeds the constructor: the table is seeded with one entry per
`qualifiers` key, in map order. -/
def new : SymbolTable :=
  ⟨qualifiers.map (fun kv => { name := kv.1, value := some kv.2 })⟩

/-- Embeds `add`: `Set.add` of a fresh object appends it. -/
def add (t : SymbolTable) (info : SymbolInfo) : SymbolTable :=
  ⟨t.data ++ [info]⟩

/-- Embeds `get`: the `for..of` loop returns the first entry, in insertion
order, whose name matches. -/
def get (t : SymbolTable) (name : String) : Option SymbolInfo :=
  t.data.find? (fun info => info.name == name)

/-- Embeds `getAll`: the generator yields every matching entry in insertion
order. -/
def getAll (t : SymbolTable) (name : String) : List SymbolInfo :=
  t.data.filter (fun info => info.name == name)

/-- Embeds `all`. -/
def all (t : SymbolTable) : List SymbolInfo :=
  t.data

end SymbolTable

/-- Embeds `fillSymbols`: the module-global `symbols` table is passed
explicitly (`none` plays the not-yet-initialized global, replaced by a fresh
table).  The walk adds one `SymbolInfo` per VariableDefinition node of the
tree — and removes nothing beforehand. -/
def fillSymbols (symbols : Option SymbolTable) (query : QueryDocumentNode)
    (uri : String) : SymbolTable :=
  let table := match symbols with
    | none => SymbolTable.new
    | some t => t
  query.nodes.foldl
    (fun t node =>
      match node with
      | Statement.varDef name =>
        t.add { name := name, defNode := some (Statement.varDef name), uri := some uri }
      | Statement.query => t)
    table

/-! ## Claim C2 — resolution order of `get` -/

/-- The first-added of two definitions of the variable `x`. -/
def shadowEarlier : SymbolInfo :=
  { name := "x", uri := some "file:///a.github-issues",
    defNode := some (Statement.varDef "x") }

/-- The later-added, distinct definition of the same variable `x`. -/
def shadowLater : SymbolInfo :=
  { name := "x", uri := some "file:///b.github-issues",
    defNode := some (Statement.varDef "x") }

/-- C2: evaluation of the code at the failing input.  After `add`ing two
distinct entries named `x` in order, `get "x"` returns the first-added
entry, not the most recently added one (the `for..of` over the insertion-
ordered `Set` returns the first match), while `getAll "x"` yields both in
insertion order. -/
theorem symbolTable_get_returns_first_added :
    ((SymbolTable.new.add shadowEarlier).add shadowLater).get "x" = some shadowEarlier ∧
    shadowEarlier ≠ shadowLater ∧
    ((SymbolTable.new.add shadowEarlier).add shadowLater).getAll "x"
      = [shadowEarlier, shadowLater] := by
  refine ⟨by decide, by decide, by decide⟩

/-! ## Claim C3 — fillSymbols never removes a document's old entries -/

/-- A parse tree of the document containing the definition of `$a`. -/
def docTreeWithA : QueryDocumentNode := ⟨[Statement.varDef "a"]⟩

/-- The reparsed tree of the same document, no longer defining `$a`. -/
def docTreeWithoutA : QueryDocumentNode := ⟨[Statement.query]⟩

/-- C3: evaluation of the code at the failing input.  Updating the document
a second time with a tree that no longer defines `$a` leaves the stale
`$a` entry in the table: `fillSymbols` only adds and never removes a
document's previously contributed entries. -/
theorem fillSymbols_keeps_stale_entries :
    (fillSymbols (some (fillSymbols none docTreeWithA "file:///doc.github-issues"))
        docTreeWithoutA "file:///doc.github-issues").getAll "a"
      = [{ name := "a", uri := some "file:///doc.github-issues",
           defNode := some (Statement.varDef "a") }] := by
  decide

/-! ## Claim C10 — requiresPrType qualifiers resolve with a value domain -/

theorem find_first_append {p : SymbolInfo → Bool} (l1 l2 : List SymbolInfo)
    (h : (l1.find? p).isSome = true) : (l1 ++ l2).find? p = l1.find? p := by
  induction l1 with
  | nil => simp at h
  | cons a as ih =>
    by_cases hp : p a = true
    · simp [List.find?_cons_of_pos _ hp]
    · rw [Bool.not_eq_true] at hp
      rw [List.find?_cons_of_neg _ (by simp [hp])] at h
      rw [List.cons_append, List.find?_cons_of_neg _ (by simp [hp]),
        List.find?_cons_of_neg _ (by simp [hp])]
      exact ih h

theorem get_add_of_isSome (t : SymbolTable) (i : SymbolInfo) (n : String)
    (h : (t.get n).isSome = true) : (t.add i).get n = t.get n := by
  unfold SymbolTable.get SymbolTable.add at *
  exact find_first_append t.data [i] h

theorem get_foldl_add (extra : List SymbolInfo) (t : SymbolTable) (n : String)
    (h : (t.get n).isSome = true) :
    (extra.foldl SymbolTable.add t).get n = t.get n := by
  induction extra generalizing t with
  | nil => rfl
  | cons i is ih =>
    rw [List.foldl_cons]
    have hstep : (t.add i).get n = t.get n := get_add_of_isSome t i n h
    rw [ih (t.add i) (by rw [hstep]; exact h), hstep]

/-- C10: every qualifier name in `requiresPrType` resolves in a freshly
constructed `SymbolTable` to a `SymbolInfo` carrying a declared value
domain, and the resolution is unaffected by any later sequence of `add`s:
built-in entries are seeded first in the constructor, no operation removes
them, and `get` returns the first (seeded) match. -/
theorem requiresPrType_resolves (n : String) (h : n ∈ requiresPrType) :
    (Option.any (fun info => info.value.isSome) (SymbolTable.new.get n)) = true ∧
    ∀ extra : List SymbolInfo,
      (extra.foldl SymbolTable.add SymbolTable.new).get n = SymbolTable.new.get n := by
  have hsome : ((SymbolTable.new.get n).isSome) = true := by
    simp only [requiresPrType, List.mem_cons, List.not_mem_nil, or_false] at h
    rcases h with rfl | rfl | rfl | rfl | rfl | rfl | rfl | rfl | rfl <;> decide
  constructor
  · simp only [requiresPrType, List.mem_cons, List.not_mem_nil, or_false] at h
    rcases h with rfl | rfl | rfl | rfl | rfl | rfl | rfl | rfl | rfl <;> decide
  · intro extra
    exact get_foldl_add extra _ n hsome

/-- Witness for C10 at the qualifier `status`: it resolves with a declared
value domain, and an `add` of an unrelated entry leaves the resolution
unchanged. -/
theorem requiresPrType_resolves_witness :
    (Option.any (fun info => info.value.isSome) (SymbolTable.new.get "status")) = true ∧
    ([shadowEarlier].foldl SymbolTable.add SymbolTable.new).get "status"
      = SymbolTable.new.get "status" :=
  ⟨(requiresPrType_resolves "status" (by decide)).1,
   (requiresPrType_resolves "status" (by decide)).2 [shadowEarlier]⟩

/-! ## The paginated fetch loop of `_doExecuteCell` -/

/-- One response of the `search.issuesAndPullRequests` endpoint: the page's
items and the server-reported `total_count`. -/
structure SearchResponse where
  items : List Item
  total_count : Nat
deriving DecidableEq, Repr

/-- One issued page request: the page number and the page size the source
passes (`per_page: 100`). -/
structure SearchRequest where
  page : Nat
  per_page : Nat
deriving DecidableEq, Repr

/-- What a fetch accumulates: the requests it issued, the items it
concatenated, the responses it consumed, and the `tooLarge` flag. -/
structure FetchResult where
  requests : List SearchRequest
  items : List Item
  consumed : List SearchResponse
  tooLarge : Bool
deriving DecidableEq, Repr

/-- The accumulator before anything was fetched. -/
def emptyFetch : FetchResult := ⟨[], [], [], false⟩

/-- Total number of items in a list of responses. -/
def countItems (l : List SearchResponse) : Nat :=
  (l.map (fun r => r.items.length)).sum

/-- Embeds the `while` paging loop of `_doExecuteCell` for one sub-query.
The cancellation token is embedded as the value the `while` test observes at
its n-th evaluation (`cancelled`), the server as the finite sequence of page
responses it would serve (`responses`; the loop also stops at the end of
this modelling boundary).  `page` and `count` are the loop's mutable
variables, `iter` numbers the next `while` test.  Returns the accumulated
result and the index of the next unevaluated test, so a later loop of the
same unit continues observing the same token. -/
def fetchLoop (cancelled : Nat → Bool) (responses : List SearchResponse)
    (page count iter : Nat) : FetchResult × Nat :=
  if cancelled iter then (emptyFetch, iter + 1)
  else
    match responses with
    | [] => (emptyFetch, iter + 1)
    | r :: rest =>
      let req : SearchRequest := { page := page, per_page := 100 }
      let count2 := count + r.items.length
      let tl := decide (1000 < r.total_count)
      if min 1000 r.total_count ≤ count2 then
        ({ requests := [req], items := r.items, consumed := [r], tooLarge := tl }, iter + 1)
      else
        let next := fetchLoop cancelled rest (page + 1) count2 (iter + 1)
        ({ requests := req :: next.1.requests
           items := r.items ++ next.1.items
           consumed := r :: next.1.consumed
           tooLarge := tl || next.1.tooLarge }, next.2)

/-- Embeds the `for (queryData of allQueryData)` loop around the paging
loop: `allItems` accumulates across sub-queries, `tooLarge` is OR-combined,
and `page`/`count` restart at 1 and 0 for each sub-query. -/
def executeUnit (cancelled : Nat → Bool) (queries : List (List SearchResponse))
    (iter : Nat) : FetchResult :=
  match queries with
  | [] => emptyFetch
  | rs :: rest =>
    let fr := fetchLoop cancelled rs 1 0 iter
    let ur := executeUnit cancelled rest fr.2
    { requests := fr.1.requests ++ ur.requests
      items := fr.1.items ++ ur.items
      consumed := fr.1.consumed ++ ur.consumed
      tooLarge := fr.1.tooLarge || ur.tooLarge }

/-- Embeds the same paging loop when a page request may fail: a page of the
server sequence is either a response or a thrown network error (an aborted
in-flight request surfaces as a throw too), and a throw propagates out of
the loop to the `catch` of `_doExecuteCell`. -/
def fetchLoopE (cancelled : Nat → Bool)
    (responses : List (Except String SearchResponse)) (page count iter : Nat) :
    Except String (FetchResult × Nat) :=
  if cancelled iter then Except.ok (emptyFetch, iter + 1)
  else
    match responses with
    | [] => Except.ok (emptyFetch, iter + 1)
    | Except.error e :: _ => Except.error e
    | Except.ok r :: rest =>
      let req : SearchRequest := { page := page, per_page := 100 }
      let count2 := count + r.items.length
      let tl := decide (1000 < r.total_count)
      if min 1000 r.total_count ≤ count2 then
        Except.ok ({ requests := [req], items := r.items, consumed := [r], tooLarge := tl },
          iter + 1)
      else
        match fetchLoopE cancelled rest (page + 1) count2 (iter + 1) with
        | Except.error e => Except.error e
        | Except.ok (next, ni) =>
          Except.ok ({ requests := req :: next.requests
                       items := r.items ++ next.items
                       consumed := r :: next.consumed
                       tooLarge := tl || next.tooLarge }, ni)

/-- Embeds the sub-query loop with error propagation: the whole `for` loop
sits inside one `try`, so the first thrown error aborts the remaining
sub-queries of the unit. -/
def executeUnitE (cancelled : Nat → Bool)
    (queries : List (List (Except String SearchResponse))) (iter : Nat) :
    Except String FetchResult :=
  match queries with
  | [] => Except.ok emptyFetch
  | rs :: rest =>
    match fetchLoopE cancelled rs 1 0 iter with
    | Except.error e => Except.error e
    | Except.ok (fr, ni) =>
      match executeUnitE cancelled rest ni with
      | Except.error e => Except.error e
      | Except.ok ur =>
        Except.ok { requests := fr.requests ++ ur.requests
                    items := fr.items ++ ur.items
                    consumed := fr.consumed ++ ur.consumed
                    tooLarge := fr.tooLarge || ur.tooLarge }

/-- The total run (no page fails) and the fallible embedding agree. -/
theorem fetchLoopE_ok (cancelled : Nat → Bool) (responses : List SearchResponse)
    (page count iter : Nat) :
    fetchLoopE cancelled (responses.map Except.ok) page count iter
      = Except.ok (fetchLoop cancelled responses page count iter) := by
  induction responses generalizing page count iter with
  | nil => by_cases hc : cancelled iter = true <;> simp [fetchLoopE, fetchLoop, hc]
  | cons r rest ih =>
    by_cases hc : cancelled iter = true
    · simp [fetchLoopE, fetchLoop, hc]
    · by_cases hm : min 1000 r.total_count ≤ count + r.items.length
      · simp [fetchLoopE, fetchLoop, hc, hm]
      · simp [fetchLoopE, fetchLoop, hc, hm, ih]

/-- A loop whose first `while` test observes cancellation does nothing. -/
theorem fetchLoop_cancelled (cancelled : Nat → Bool) (responses : List SearchResponse)
    (page count iter : Nat) (h : cancelled iter = true) :
    fetchLoop cancelled responses page count iter = (emptyFetch, iter + 1) := by
  cases responses <;> simp [fetchLoop, h]

theorem fetchLoop_per_page (cancelled : Nat → Bool) (responses : List SearchResponse)
    (page count iter : Nat) :
    ∀ req ∈ (fetchLoop cancelled responses page count iter).1.requests,
      req.per_page = 100 := by
  induction responses generalizing page count iter with
  | nil =>
    intro req hreq
    by_cases hc : cancelled iter = true <;> simp [fetchLoop, hc, emptyFetch] at hreq
  | cons r0 rest ih =>
    intro req hreq
    by_cases hc : cancelled iter = true
    · simp [fetchLoop, hc, emptyFetch] at hreq
    · by_cases hm : min 1000 r0.total_count ≤ count + r0.items.length
      · simp [fetchLoop, hc, hm] at hreq
        rw [hreq]
      · simp [fetchLoop, hc, hm] at hreq
        rcases hreq with rfl | hreq
        · rfl
        · exact ih (page + 1) (count + r0.items.length) (iter + 1) req hreq

theorem fetchLoop_tooLarge (cancelled : Nat → Bool) (responses : List SearchResponse)
    (page count iter : Nat) :
    (fetchLoop cancelled responses page count iter).1.tooLarge
      = (fetchLoop cancelled responses page count iter).1.consumed.any
          (fun r => decide (1000 < r.total_count)) := by
  induction responses generalizing page count iter with
  | nil => by_cases hc : cancelled iter = true <;> simp [fetchLoop, hc, emptyFetch]
  | cons r0 rest ih =>
    by_cases hc : cancelled iter = true
    · simp [fetchLoop, hc, emptyFetch]
    · by_cases hm : min 1000 r0.total_count ≤ count + r0.items.length
      · simp [fetchLoop, hc, hm]
      · simp [fetchLoop, hc, hm, ih]

theorem executeUnit_per_page (cancelled : Nat → Bool)
    (queries : List (List SearchResponse)) (iter : Nat) :
    ∀ req ∈ (executeUnit cancelled queries iter).requests, req.per_page = 100 := by
  induction queries generalizing iter with
  | nil => intro req hreq; simp [executeUnit, emptyFetch] at hreq
  | cons rs rest ih =>
    intro req hreq
    simp only [executeUnit, List.mem_append] at hreq
    rcases hreq with h | h
    · exact fetchLoop_per_page cancelled rs 1 0 iter req h
    · exact ih _ req h

theorem executeUnit_tooLarge (cancelled : Nat → Bool)
    (queries : List (List SearchResponse)) (iter : Nat) :
    (executeUnit cancelled queries iter).tooLarge
      = (executeUnit cancelled queries iter).consumed.any
          (fun r => decide (1000 < r.total_count)) := by
  induction queries generalizing iter with
  | nil => simp [executeUnit, emptyFetch]
  | cons rs rest ih =>
    simp only [executeUnit, List.any_append]
    rw [fetchLoop_tooLarge, ih]

theorem fetchLoop_continues (cancelled : Nat → Bool) (responses : List SearchResponse)
    (page count iter : Nat) (pre : List SearchResponse) (r : SearchResponse)
    (post : List SearchResponse)
    (hcons : (fetchLoop cancelled responses page count iter).1.consumed = pre ++ r :: post)
    (hpost : post ≠ []) :
    count + countItems pre + r.items.length < min 1000 r.total_count ∧
    cancelled (iter + pre.length + 1) = false := by
  induction responses generalizing page count iter pre with
  | nil =>
    by_cases hc : cancelled iter = true
    · rw [fetchLoop_cancelled _ _ _ _ _ hc] at hcons
      simp [emptyFetch] at hcons
    · simp [fetchLoop, hc, emptyFetch] at hcons
  | cons r0 rest ih =>
    by_cases hc : cancelled iter = true
    · rw [fetchLoop_cancelled _ _ _ _ _ hc] at hcons
      simp [emptyFetch] at hcons
    · by_cases hm : min 1000 r0.total_count ≤ count + r0.items.length
      · simp [fetchLoop, hc, hm] at hcons
        cases pre with
        | nil =>
          simp at hcons
          exact absurd hcons.2 hpost
        | cons p ps =>
          simp at hcons
      · simp [fetchLoop, hc, hm] at hcons
        cases pre with
        | nil =>
          simp at hcons
          obtain ⟨hp, hrest⟩ := hcons
          subst hp
          constructor
          · simp only [countItems, List.map_nil, List.sum_nil]
            omega
          · by_cases hc2 : cancelled (iter + 1) = true
            · rw [fetchLoop_cancelled _ _ _ _ _ hc2] at hrest
              simp [emptyFetch] at hrest
              exact absurd hrest hpost
            · simpa using hc2
        | cons p ps =>
          simp at hcons
          obtain ⟨hp, hrest⟩ := hcons
          subst hp
          constructor
          · have h1 := (ih _ _ _ ps hrest).1
            simp only [countItems, List.map_cons, List.sum_cons] at h1 ⊢
            omega
          · have h2 := (ih _ _ _ ps hrest).2
            convert h2 using 2
            simp only [List.length_cons]
            omega

/-! ## Claim C4 — paging, stopping, truncation -/

/-- C4: every issued request carries `per_page = 100`; the unit's `tooLarge`
flag is set exactly when some consumed response reports a total count
exceeding 1000; and within a sub-query's loop, fetching continued past a
consumed response only because the accumulated item count was still below
`min 1000 total_count` of that response and the next `while` test observed
no cancellation — i.e. fetching stops as soon as the accumulated count
reaches `min(1000, reported total)` or cancellation fires. -/
theorem fetch_paging_characterization :
    (∀ (cancelled : Nat → Bool) (queries : List (List SearchResponse)) (iter : Nat)
        (req : SearchRequest),
        req ∈ (executeUnit cancelled queries iter).requests → req.per_page = 100) ∧
    (∀ (cancelled : Nat → Bool) (queries : List (List SearchResponse)) (iter : Nat),
        (executeUnit cancelled queries iter).tooLarge
          = (executeUnit cancelled queries iter).consumed.any
              (fun r => decide (1000 < r.total_count))) ∧
    (∀ (cancelled : Nat → Bool) (responses : List SearchResponse)
        (page count iter : Nat) (pre : List SearchResponse) (r : SearchResponse)
        (post : List SearchResponse),
        (fetchLoop cancelled responses page count iter).1.consumed = pre ++ r :: post →
        post ≠ [] →
        count + countItems pre + r.items.length < min 1000 r.total_count ∧
        cancelled (iter + pre.length + 1) = false) :=
  ⟨fun c q i req h => executeUnit_per_page c q i req h,
   fun c q i => executeUnit_tooLarge c q i,
   fun c rs p cnt it pre r post h1 h2 => fetchLoop_continues c rs p cnt it pre r post h1 h2⟩

/-- A fetch environment that never observes cancellation. -/
def neverCancelled : Nat → Bool := fun _ => false

/-- A first page of 100 items against a reported total of 150. -/
def pageOne : SearchResponse := ⟨List.replicate 100 itemA, 150⟩

/-- The second page carrying the remaining 50 items. -/
def pageTwo : SearchResponse := ⟨List.replicate 50 itemA, 150⟩

/-- Witness for C4 at a concrete two-page fetch: the loop consumed the
second page, so after the first page the count 100 was below
`min 1000 150 = 150` and the second `while` test observed no
cancellation. -/
theorem fetch_paging_witness :
    0 + countItems [] + pageOne.items.length < min 1000 pageOne.total_count ∧
    neverCancelled (0 + List.length ([] : List SearchResponse) + 1) = false :=
  fetch_paging_characterization.2.2 neverCancelled [pageOne, pageTwo] 1 0 0
    [] pageOne [pageTwo] (by decide) (by decide)

/-! ## The NotebookCellExecution run-state machine -/

/-- The host's cell run states (`vscode.NotebookCellRunState`; the metadata
field may also be unset, hence the `Option` at its uses). -/
inductive RunState where
  | idle
  | running
  | success
  | error
deriving DecidableEq, Repr

/-- One cell output: an opaque rich payload, or the error output `reject`
builds from the thrown error. -/
inductive CellOutput where
  | rich (payload : String)
  | errorOutput (message : String)
deriving DecidableEq, Repr

/-- The outward-visible cell metadata `NotebookCellExecution` mutates:
`runState`, `statusMessage` and `outputs`.  The wall-clock fields
(`runStartTime`, `lastRunDuration`) are elided — real time is outside the
embedding. -/
structure CellData where
  runState : Option RunState
  statusMessage : Option String
  outputs : List CellOutput
deriving DecidableEq, Repr

/-- The bookkeeping of one cell's executions: the static `_tokenPool`
counter, the `_tokens` WeakMap entry for the cell (`none` once deleted), the
`_originalRunState` captured by the most recently constructed execution, and
the cell metadata itself. -/
structure ExecState where
  tokenPool : Nat
  tokens : Option Nat
  orig : Option RunState
  cell : CellData
deriving DecidableEq, Repr

/-- The operations of `NotebookCellExecution`, each tagged with the token of
the execution object performing it (`start` is the constructor, which draws
its own fresh token from the pool). -/
inductive Event where
  | start
  | cancel (t : Nat)
  | resolve (t : Nat) (outputs : List CellOutput) (message : Option String)
  | reject (t : Nat) (err : String)
deriving DecidableEq, Repr

/-- Embeds the bodies of the constructor, `cancel`, `resolve` and `reject`:
the constructor stores its fresh token (`_tokenPool++`) in the map, captures
`_originalRunState` before setting the state to running; the other three are
guarded by `_isLatest()` — the stored token must equal the caller's token —
and are no-ops otherwise.  `cancel` restores the captured original run state
and deletes the map entry; `resolve` writes success, the status message and
the outputs; `reject` writes the error state, the message `'Error'` and one
error output. -/
def applyEvent (s : ExecState) : Event → ExecState
  | Event.start =>
    { tokenPool := s.tokenPool + 1
      tokens := some s.tokenPool
      orig := s.cell.runState
      cell := { s.cell with runState := some RunState.running } }
  | Event.cancel t =>
    if s.tokens = some t then
      { s with tokens := none, cell := { s.cell with runState := s.orig } }
    else s
  | Event.resolve t outs msg =>
    if s.tokens = some t then
      { s with cell := { runState := some RunState.success
                         statusMessage := msg
                         outputs := outs } }
    else s
  | Event.reject t err =>
    if s.tokens = some t then
      { s with cell := { runState := some RunState.error
                         statusMessage := some "Error"
                         outputs := [CellOutput.errorOutput err] } }
    else s

/-- A sequence of operations applied in order. -/
def applyEvents (s : ExecState) (es : List Event) : ExecState :=
  es.foldl applyEvent s

theorem tokenPool_mono_step (s : ExecState) (e : Event) :
    s.tokenPool ≤ (applyEvent s e).tokenPool := by
  cases e with
  | start => simp [applyEvent]
  | cancel t => simp only [applyEvent]; split <;> simp
  | resolve t outs msg => simp only [applyEvent]; split <;> simp
  | reject t err => simp only [applyEvent]; split <;> simp

theorem tokenPool_mono (s : ExecState) (es : List Event) :
    s.tokenPool ≤ (applyEvents s es).tokenPool := by
  induction es generalizing s with
  | nil => exact Nat.le_refl _
  | cons e es ih =>
    exact Nat.le_trans (tokenPool_mono_step s e) (ih (applyEvent s e))

theorem retired_token_step (s : ExecState) (e : Event) (t : Nat)
    (h1 : t < s.tokenPool) (h2 : s.tokens ≠ some t) :
    t < (applyEvent s e).tokenPool ∧ (applyEvent s e).tokens ≠ some t := by
  cases e with
  | start =>
    refine ⟨by simp [applyEvent]; omega, ?_⟩
    simp only [applyEvent]
    intro hc
    rw [Option.some.injEq] at hc
    omega
  | cancel u =>
    simp only [applyEvent]
    split <;> simp_all
  | resolve u outs msg =>
    simp only [applyEvent]
    split <;> simp_all
  | reject u err =>
    simp only [applyEvent]
    split <;> simp_all

theorem retired_token (s : ExecState) (es : List Event) (t : Nat)
    (h1 : t < s.tokenPool) (h2 : s.tokens ≠ some t) :
    t < (applyEvents s es).tokenPool ∧ (applyEvents s es).tokens ≠ some t := by
  induction es generalizing s with
  | nil => exact ⟨h1, h2⟩
  | cons e es ih =>
    have step := retired_token_step s e t h1 h2
    exact ih (applyEvent s e) step.1 step.2

theorem stale_resolve_noop (s : ExecState) (t : Nat) (out : List CellOutput)
    (msg : Option String) (h : s.tokens ≠ some t) :
    applyEvent s (Event.resolve t out msg) = s := by
  simp [applyEvent, h]

theorem stale_reject_noop (s : ExecState) (t : Nat) (err : String)
    (h : s.tokens ≠ some t) :
    applyEvent s (Event.reject t err) = s := by
  simp [applyEvent, h]

/-! ## Claim C6 — generation guard -/

/-- C6: the generation counter never decreases across any event sequence;
the constructor captures the then-current pool value as its token; `resolve`
and `reject` are complete no-ops unless the caller's token is the cell's
current one; cancelling the current run retires its token; and once a token
is retired (strictly below the pool and not current — as after a cancel, or
after any newer `start` has taken a fresh, larger token), it stays retired
through every further event sequence, so its `resolve`/`reject` never
mutate anything again. -/
theorem generation_guard (s : ExecState) (es : List Event) (t : Nat)
    (out : List CellOutput) (msg : Option String) (err : String) :
    s.tokenPool ≤ (applyEvents s es).tokenPool ∧
    (applyEvent s Event.start).tokens = some s.tokenPool ∧
    (s.tokens ≠ some t →
      applyEvent s (Event.resolve t out msg) = s ∧
      applyEvent s (Event.reject t err) = s) ∧
    (s.tokens = some t → (applyEvent s (Event.cancel t)).tokens = none) ∧
    (t < s.tokenPool → s.tokens ≠ some t →
      t < (applyEvents s es).tokenPool ∧
      (applyEvents s es).tokens ≠ some t ∧
      applyEvent (applyEvents s es) (Event.resolve t out msg) = applyEvents s es ∧
      applyEvent (applyEvents s es) (Event.reject t err) = applyEvents s es) := by
  refine ⟨tokenPool_mono s es, by simp [applyEvent], ?_, ?_, ?_⟩
  · intro h
    exact ⟨stale_resolve_noop s t out msg h, stale_reject_noop s t err h⟩
  · intro h
    simp [applyEvent, h]
  · intro h1 h2
    have hr := retired_token s es t h1 h2
    exact ⟨hr.1, hr.2,
      stale_resolve_noop _ t out msg hr.2, stale_reject_noop _ t err hr.2⟩

/-- An idle cell before any run. -/
def cellIdle : CellData := ⟨some RunState.idle, none, []⟩

/-- A bookkeeping state in which tokens 0, 1, 2 have already been issued
and retired (no current execution). -/
def execSettled : ExecState := ⟨3, none, none, cellIdle⟩

/-- Witness for C6: after a newer run starts from `execSettled`, the
retired token 1 can no longer mutate anything. -/
theorem generation_guard_witness :
    1 < (applyEvents execSettled [Event.start]).tokenPool ∧
    (applyEvents execSettled [Event.start]).tokens ≠ some 1 ∧
    applyEvent (applyEvents execSettled [Event.start]) (Event.resolve 1 [] none)
      = applyEvents execSettled [Event.start] ∧
    applyEvent (applyEvents execSettled [Event.start]) (Event.reject 1 "boom")
      = applyEvents execSettled [Event.start] :=
  (generation_guard execSettled [Event.start] 1 [] none "boom").2.2.2.2
    (by decide) (by decide)

/-! ## Claim C7 — cancellation is not an error; network failure is -/

/-- A cancellation observation that, once raised, stays raised (the
`CancellationTokenSource` is never reset). -/
def MonotoneCancel (cancelled : Nat → Bool) : Prop :=
  ∀ i j, i ≤ j → cancelled i = true → cancelled j = true

theorem executeUnit_cancelled (cancelled : Nat → Bool)
    (queries : List (List SearchResponse)) (iter : Nat)
    (hmono : MonotoneCancel cancelled) (h : cancelled iter = true) :
    executeUnit cancelled queries iter = emptyFetch := by
  induction queries generalizing iter with
  | nil => rfl
  | cons rs rest ih =>
    have hloop := fetchLoop_cancelled cancelled rs 1 0 iter h
    have hnext : cancelled (iter + 1) = true := hmono iter (iter + 1) (by omega) h
    simp [executeUnit, hloop, ih (iter + 1) hnext, emptyFetch]

/-- The `while`-test index at which a given sub-query's loop starts, after
the unit has run the paging loops of the sub-queries before it (the same
threading of the token observations `executeUnit` performs). -/
def unitNextIter (cancelled : Nat → Bool) (front : List (List SearchResponse))
    (iter : Nat) : Nat :=
  match front with
  | [] => iter
  | rs :: rest => unitNextIter cancelled rest (fetchLoop cancelled rs 1 0 iter).2

/-- A thrown error in any sub-query — after any number of earlier
sub-queries completed their paging — aborts the whole unit's execution with
that error, the remaining sub-queries never running. -/
theorem executeUnitE_error_propagates (cancelled : Nat → Bool)
    (front : List (List SearchResponse)) (pages : List (Except String SearchResponse))
    (rest : List (List (Except String SearchResponse))) (e : String) (iter : Nat)
    (herr : fetchLoopE cancelled pages 1 0 (unitNextIter cancelled front iter)
      = Except.error e) :
    executeUnitE cancelled (front.map (fun rs => rs.map Except.ok) ++ pages :: rest) iter
      = Except.error e := by
  induction front generalizing iter with
  | nil =>
    simp only [unitNextIter] at herr
    simp [executeUnitE, herr]
  | cons rs front2 ih =>
    simp only [unitNextIter] at herr
    have hok2 : fetchLoopE cancelled (rs.map Except.ok) 1 0 iter
        = Except.ok ((fetchLoop cancelled rs 1 0 iter).1,
            (fetchLoop cancelled rs 1 0 iter).2) := by
      rw [fetchLoopE_ok]
    simp only [List.map_cons, List.cons_append, executeUnitE, hok2]
    simp only [List.append_eq]
    rw [ih _ herr]

/-- C7: (a) once cancellation is observed, the whole unit issues no further
page request and accumulates nothing; (b) cancelling the current run
restores the run state captured when the run started, and the later
`resolve`/`reject` of that run (the loop falls through to them) change
nothing — in particular the run state is the pre-run one, not an error
state; (c) by contrast, `reject` of the current run (the `catch` path taken
on a network failure) sets the terminal error state and message, and a
thrown error in any sub-query — at any position, after the sub-queries
before it completed their paging — aborts the whole unit. -/
theorem cancellation_not_error (s : ExecState) (out : List CellOutput)
    (msg : Option String) (err : String) :
    (∀ (cancelled : Nat → Bool) (queries : List (List SearchResponse)) (iter : Nat),
        MonotoneCancel cancelled → cancelled iter = true →
        executeUnit cancelled queries iter = emptyFetch) ∧
    ((applyEvent (applyEvent s Event.start) (Event.cancel s.tokenPool)).cell.runState
        = s.cell.runState ∧
      applyEvent (applyEvent (applyEvent s Event.start) (Event.cancel s.tokenPool))
          (Event.resolve s.tokenPool out msg)
        = applyEvent (applyEvent s Event.start) (Event.cancel s.tokenPool) ∧
      applyEvent (applyEvent (applyEvent s Event.start) (Event.cancel s.tokenPool))
          (Event.reject s.tokenPool err)
        = applyEvent (applyEvent s Event.start) (Event.cancel s.tokenPool)) ∧
    ((applyEvent (applyEvent s Event.start) (Event.reject s.tokenPool err)).cell.runState
        = some RunState.error ∧
      (applyEvent (applyEvent s Event.start)
          (Event.reject s.tokenPool err)).cell.statusMessage = some "Error") ∧
    (∀ (cancelled : Nat → Bool) (front : List (List SearchResponse))
        (pages : List (Except String SearchResponse))
        (rest : List (List (Except String SearchResponse))) (e : String) (iter : Nat),
        fetchLoopE cancelled pages 1 0 (unitNextIter cancelled front iter)
          = Except.error e →
        executeUnitE cancelled (front.map (fun rs => rs.map Except.ok) ++ pages :: rest)
            iter
          = Except.error e) := by
  refine ⟨executeUnit_cancelled, ⟨?_, ?_, ?_⟩, ⟨?_, ?_⟩, ?_⟩
  · simp [applyEvent]
  · simp [applyEvent]
  · simp [applyEvent]
  · simp [applyEvent]
  · simp [applyEvent]
  · exact executeUnitE_error_propagates

/-- A cancellation observation that is already raised. -/
def alwaysCancelled : Nat → Bool := fun _ => true

/-- Witness for C7 at concrete inputs: an already-cancelled unit fetches
nothing, and a network failure in the second sub-query — after the first
sub-query completed its two-page fetch — aborts the whole unit with that
error, the third sub-query never running. -/
theorem cancellation_not_error_witness :
    executeUnit alwaysCancelled [[pageOne], [pageTwo]] 0 = emptyFetch ∧
    executeUnitE neverCancelled
        [[Except.ok pageOne, Except.ok pageTwo], [Except.error "ECONNRESET"],
          [Except.ok pageOne]] 0
      = Except.error "ECONNRESET" :=
  ⟨(cancellation_not_error execSettled [] none "boom").1
      alwaysCancelled [[pageOne], [pageTwo]] 0 (fun _ _ _ h => h) rfl,
   (cancellation_not_error execSettled [] none "boom").2.2.2
      neverCancelled [[pageOne, pageTwo]] [Except.error "ECONNRESET"]
      [[Except.ok pageOne]] "ECONNRESET" 0 rfl⟩
